import Mathlib

/-!
Shallow embedding of `src/term/__init__.py`, a small terminal-mode and
cursor-query library.

Modelling choices:
* A terminal attribute list (the result of `termios.tcgetattr`) is the
  record `TermAttrs`; the flag words are `Nat` (Python's nonnegative
  ints) and the control-character array a `List Nat`.
* The terminal device behind a file descriptor is the record `Dev`:
  its current attributes, the log of `tcsetattr` commits (flush policy
  and committed mode), the characters the terminal will still send
  (one list element per successful one-byte read; the end of the list
  is the first empty read), and the list of strings written to it
  (one element per `write` call).
* Python's `x & ~m` on nonnegative ints is `andNot x m`.
* The termios constants carry their Linux (asm-generic) values.
* Exceptions raised by a scope body are modelled by the body returning
  an `Option ε` alongside the device state it reached.
-/

/-! ## termios constants (as imported by `from termios import *`) -/

def TCSANOW : Nat := 0
def TCSADRAIN : Nat := 1
def TCSAFLUSH : Nat := 2
def BRKINT : Nat := 0o2
def ICRNL : Nat := 0o400
def INPCK : Nat := 0o20
def ISTRIP : Nat := 0o40
def IXON : Nat := 0o2000
def OPOST : Nat := 0o1
def CSIZE : Nat := 0o60
def CS8 : Nat := 0o60
def PARENB : Nat := 0o400
def ECHO : Nat := 0o10
def ICANON : Nat := 0o2
def IEXTEN : Nat := 0o100000
def ISIG : Nat := 0o1
def VTIME : Nat := 5
def VMIN : Nat := 6

/-- Indexes for the termios list (`__init__.py:13-19`); in the record
embedding below the same six slots and the `cc` array appear as named
fields in this order. -/
def IFLAG : Nat := 0

def OFLAG : Nat := 1

def CFLAG : Nat := 2

def LFLAG : Nat := 3

def ISPEED : Nat := 4

def OSPEED : Nat := 5

def CC : Nat := 6

/-- Python's `x & ~m` for nonnegative integers: clear in `x` every bit
set in `m` (`x ^^^ (x &&& m)` has exactly this effect bitwise, since
`x &&& m` is the subset of `x`'s bits that lie in `m`). -/
def andNot (x m : Nat) : Nat := x ^^^ (x &&& m)

/-- A terminal attribute snapshot: the list
`[iflag, oflag, cflag, lflag, ispeed, ospeed, cc]` of
`termios.tcgetattr`, as a record. -/
structure TermAttrs where
  iflag : Nat
  oflag : Nat
  cflag : Nat
  lflag : Nat
  ispeed : Nat
  ospeed : Nat
  cc : List Nat
deriving DecidableEq

/-- The terminal device behind one file descriptor: current attributes,
the log of `tcsetattr` commits (flush policy, committed mode), pending
input characters, and the trace of written strings. -/
structure Dev where
  attrs : TermAttrs
  setLog : List (Nat × TermAttrs)
  input : List Char
  writes : List String
deriving DecidableEq

/-- `termios.tcgetattr(fd)`: read the current attributes (the claims
considered here presuppose the read succeeds, so it is total). -/
def tcgetattr (d : Dev) : TermAttrs := d.attrs

/-- `termios.tcsetattr(fd, when, mode)`: commit `mode` with flush
policy `when`; the commit is appended to the log. -/
def tcsetattr (d : Dev) (when : Nat) (mode : TermAttrs) : Dev :=
  { d with attrs := mode, setLog := d.setLog ++ [(when, mode)] }

/-- The attribute transformation performed by `setraw`
(`__init__.py:24-31`): clear BRKINT, ICRNL, INPCK, ISTRIP, IXON on the
input flags; clear OPOST on the output flags; clear CSIZE and PARENB
and set CS8 on the control flags; clear ECHO, ICANON, IEXTEN, ISIG on
the local flags; store `min` into `cc[VMIN]` and `time` into
`cc[VTIME]`. -/
def rawAttrs (mode : TermAttrs) (min time : Nat) : TermAttrs :=
  { mode with
    iflag := andNot mode.iflag (BRKINT ||| ICRNL ||| INPCK ||| ISTRIP ||| IXON)
    oflag := andNot mode.oflag OPOST
    cflag := andNot mode.cflag (CSIZE ||| PARENB) ||| CS8
    lflag := andNot mode.lflag (ECHO ||| ICANON ||| IEXTEN ||| ISIG)
    cc := (mode.cc.set VMIN min).set VTIME time }

/-- The attribute transformation performed by `setcbreak`
(`__init__.py:37-40`): clear only ECHO and ICANON on the local flags
and store `min`/`time` into `cc[VMIN]`/`cc[VTIME]`. -/
def cbreakAttrs (mode : TermAttrs) (min time : Nat) : TermAttrs :=
  { mode with
    lflag := andNot mode.lflag (ECHO ||| ICANON)
    cc := (mode.cc.set VMIN min).set VTIME time }

/-- `setraw(fd, when, min, time)` (`__init__.py:22`): read the current
attributes, transform them, commit with policy `when`. -/
def setraw (d : Dev) (when min time : Nat) : Dev :=
  tcsetattr d when (rawAttrs (tcgetattr d) min time)

/-- `setcbreak(fd, when, min, time)` (`__init__.py:35`). -/
def setcbreak (d : Dev) (when min time : Nat) : Dev :=
  tcsetattr d when (cbreakAttrs (tcgetattr d) min time)

/-- The `with rawmode(fd, when, min, time):` scope (`__init__.py:44`):
`__enter__` saves `tcgetattr` and applies `setraw` with the requested
policy; `__exit__` commits the saved attributes with `TCSAFLUSH`. The
body returns the device state it reached and `some e` when it raised;
`__exit__` runs on both paths (Python runs it during unwinding too),
and the error, if any, keeps propagating. -/
def rawmode (ε : Type) (when min time : Nat)
    (body : Dev → Dev × Option ε) (d : Dev) : Dev × Option ε :=
  let saved := tcgetattr d
  let d1 := setraw d when min time
  let r := body d1
  (tcsetattr r.1 TCSAFLUSH saved, r.2)

/-- The `with cbreakmode(fd, when, min, time):` scope
(`__init__.py:61`), same shape as `rawmode`. -/
def cbreakmode (ε : Type) (when min time : Nat)
    (body : Dev → Dev × Option ε) (d : Dev) : Dev × Option ε :=
  let saved := tcgetattr d
  let d1 := setcbreak d when min time
  let r := body d1
  (tcsetattr r.1 TCSAFLUSH saved, r.2)

/-! ## The response parser `_readyx` -/

/-- The read loop of `_readyx` (`__init__.py:103-109`) over a stream
modelled as the list of characters its successive one-byte reads
yield: accumulate characters, stop after the first `'R'`, or when a
read yields nothing (end of the list). -/
def takeResp : List Char → List Char
  | [] => []
  | c :: cs => if c = 'R' then [c] else c :: takeResp cs

/-- Match of the regex `\[(\d+);(\d+)R` (`__init__.py:111`) anchored at
the head of the list. Each `\d+` is immediately followed by a
non-digit literal (`;`, resp. `R`), so backtracking can never shorten a
group below the maximal digit run: the regex matches at this position
iff the list starts with `[`, a nonempty digit run, `;`, a nonempty
digit run, `R`; the groups are the two runs. (`\d` is modelled as the
ASCII digits, which is what a terminal reply contains.) -/
def matchAt (l : List Char) : Option (List Char × List Char) :=
  match l with
  | [] => none
  | c :: rest =>
    if c = '[' ∧ rest.takeWhile Char.isDigit ≠ [] then
      match rest.dropWhile Char.isDigit with
      | c1 :: rest2 =>
        if c1 = ';' ∧ rest2.takeWhile Char.isDigit ≠ [] then
          match rest2.dropWhile Char.isDigit with
          | c2 :: _ =>
            if c2 = 'R' then
              some (rest.takeWhile Char.isDigit, rest2.takeWhile Char.isDigit)
            else none
          | [] => none
        else none
      | [] => none
    else none

/-- `re.search(r'\[(\d+);(\d+)R', p)` (`__init__.py:111`): the leftmost
match — try `matchAt` at every start position, left to right. -/
def search : List Char → Option (List Char × List Char)
  | [] => none
  | c :: cs =>
    match matchAt (c :: cs) with
    | some g => some g
    | none => search cs

/-- Python `int(s, 10)` on the all-digit strings produced by the
match (`__init__.py:113`). -/
def pyint (l : List Char) : Nat :=
  l.foldl (fun a c => 10 * a + (c.toNat - '0'.toNat)) 0

/-- The parse step of `_readyx` (`__init__.py:110-114`): an empty
buffer or a failed search yields the `(0, 0)` sentinel, a match yields
the two groups read as base-10 integers. -/
def parseResp (p : List Char) : Nat × Nat :=
  if p = [] then (0, 0)
  else
    match search p with
    | some g => (pyint g.1, pyint g.2)
    | none => (0, 0)

/-- `_readyx` (`__init__.py:101`) over a stream modelled as the list of
characters it will yield before its first empty read. -/
def readyxList (s : List Char) : Nat × Nat := parseResp (takeResp s)

/-- `_readyx` reading from the device: the read loop consumes exactly
the characters it accumulated. -/
def readyxDev (d : Dev) : (Nat × Nat) × Dev :=
  (readyxList d.input, { d with input := d.input.drop (takeResp d.input).length })

/-- The read loop of `_readyx` once more, over a raw read function:
`read i` is the result of the `(i+1)`-st one-byte read (`none` = empty
read), and `fuel` bounds the unrolling. The termination theorem shows
the result no longer depends on the bound once a stop condition
(an `'R'` or an empty read) occurs in the stream. -/
def readLoopFuel (read : Nat → Option Char) : Nat → Nat → List Char
  | _, 0 => []
  | i, fuel + 1 =>
    match read i with
    | none => []
    | some c => if c = 'R' then [c] else c :: readLoopFuel read (i + 1) fuel

/-! ## Device stream and the DSR-6 queries -/

/-- `tty.write(s)`: append one element to the write trace. -/
def writeD (d : Dev) (s : String) : Dev :=
  { d with writes := d.writes ++ [s] }

/-- `tty.flush()` (`__init__.py:128,145`): transmits no new bytes of
its own; output buffering is not modelled. -/
def flushD (d : Dev) : Dev := d

/-- The `with ttystream() as tty:` scope (`__init__.py:78-98`).
`avail = none` models `os.open('/dev/tty', ...)` raising an
`EnvironmentError`: `__enter__` catches it and yields `None`, the
body's `if tty is not None:` guard is skipped (the body produces
`a0`), and `__exit__` closes nothing. Otherwise the body runs on the
open device and `__exit__` closes the stream. The result is the
body's value, the final device state, and whether a close happened. -/
def ttystream {α : Type} (avail : Option Dev) (a0 : α) (body : Dev → α × Dev) :
    α × Option Dev × Bool :=
  match avail with
  | none => (a0, none, false)
  | some d =>
    let r := body d
    (r.1, some r.2, true)

/-- The body of `getyx` on an open device (`__init__.py:124-128`):
under a cbreak guard with `min=0, time=1`, write the DSR-6 query,
read and parse the reply, then flush. -/
def getyxCore (d : Dev) : (Nat × Nat) × Dev :=
  let saved := tcgetattr d
  let d1 := setcbreak d TCSAFLUSH 0 1
  let d2 := writeD d1 "\x1b[6n"
  let r := readyxDev d2
  let d3 := tcsetattr r.2 TCSAFLUSH saved
  (r.1, flushD d3)

/-- `getyx()` (`__init__.py:117`). -/
def getyx (avail : Option Dev) : (Nat × Nat) × Option Dev × Bool :=
  ttystream avail (0, 0) getyxCore

/-- The body of `getmaxyx` on an open device (`__init__.py:139-145`):
under a cbreak guard, save the cursor position with a nested `getyx()`
call — which opens a second stream to the same device, modelled as
running `getyxCore` on the same device state —, write the cursor jump
to (10000, 10000) together with the DSR-6 query, read and parse the
clamped reply, write the cursor restore `ESC[<row>;<col>f` formatted
from the saved position, then flush. -/
def getmaxyxCore (d : Dev) : (Nat × Nat) × Dev :=
  let saved := tcgetattr d
  let d1 := setcbreak d TCSAFLUSH 0 1
  let ry := getyxCore d1
  let savedyx := ry.1
  let d2 := writeD ry.2 "\x1b[10000;10000f\x1b[6n"
  let r := readyxDev d2
  let d3 := writeD r.2 ("\x1b[" ++ toString savedyx.1 ++ ";" ++ toString savedyx.2 ++ "f")
  let d4 := tcsetattr d3 TCSAFLUSH saved
  (r.1, flushD d4)

/-- `getmaxyx()` (`__init__.py:132`). -/
def getmaxyx (avail : Option Dev) : (Nat × Nat) × Option Dev × Bool :=
  ttystream avail (0, 0) getmaxyxCore

/-! ## Sample data for concrete instances -/

/-- A sample attribute snapshot: a typical cooked-mode terminal
(ICRNL and IXON on input, OPOST on output, CS8 among the control
flags, ISIG, ICANON, ECHO and IEXTEN among the local flags, a 32-entry
control-character array). -/
def attrs0 : TermAttrs :=
  { iflag := 0o2400
    oflag := 0o5
    cflag := 0o277
    lflag := 0o105073
    ispeed := 15
    ospeed := 15
    cc := List.replicate 32 0 }

/-- A device whose terminal answers the first DSR-6 query with junk
(a bare `R`, which parses to the `(0, 0)` sentinel) and the second
with a proper reply. -/
def dev10 : Dev :=
  { attrs := attrs0
    setLog := []
    input := 'R' :: "\x1b[24;80R".toList
    writes := [] }

/-- A quiescent device used to instantiate universally quantified
theorems at a concrete input. -/
def dev0 : Dev :=
  { attrs := attrs0
    setLog := []
    input := []
    writes := [] }

/-- A device whose terminal answers both DSR-6 queries: first
`ESC[3;7R` (cursor at row 3, column 7), then the clamped reply
`ESC[24;80R`. -/
def devC5 : Dev :=
  { attrs := attrs0
    setLog := []
    input := "\x1b[3;7R\x1b[24;80R".toList
    writes := [] }

/-! ## Helper lemmas -/

/-- Bitwise reading of `andNot`: bit `i` of `x & ~m` is bit `i` of `x`
unless bit `i` of `m` is set. -/
theorem testBit_andNot (x m i : Nat) :
    (andNot x m).testBit i = (x.testBit i && !(m.testBit i)) := by
  simp only [andNot, Nat.testBit_xor, Nat.testBit_land]
  cases x.testBit i <;> cases m.testBit i <;> rfl


/-- C1: for a descriptor whose attribute read succeeds, both mode
guards restore the entry snapshot on every exit path — whether the
body returned normally or raised — so the attributes after release are
the pre-entry snapshot, and the restoring commit always uses
`TCSAFLUSH` whatever flush policy `when` was requested at entry. -/
theorem guards_restore_saved (ε : Type) (when min time : Nat)
    (body1 body2 : Dev → Dev × Option ε) (d : Dev) :
    ((rawmode ε when min time body1 d).1.attrs = d.attrs ∧
      (rawmode ε when min time body1 d).1.setLog.getLast? = some (TCSAFLUSH, d.attrs)) ∧
    ((cbreakmode ε when min time body2 d).1.attrs = d.attrs ∧
      (cbreakmode ε when min time body2 d).1.setLog.getLast? = some (TCSAFLUSH, d.attrs)) := by
  refine ⟨⟨rfl, ?_⟩, ⟨rfl, ?_⟩⟩ <;>
    simp [rawmode, cbreakmode, tcsetattr, tcgetattr, List.getLast?_concat]

/-- C3: the response parser on a stream yielding `ESC[24;80R` then
ending returns (24, 80); on the empty stream it returns the (0, 0)
sentinel; with leading noise and trailing bytes after the terminating
`R` it still extracts (5, 5). -/
theorem readyx_examples :
    readyxList ("\x1b[24;80R".toList) = (24, 80) ∧
      readyxList ("".toList) = (0, 0) ∧
      readyxList ("garbage\x1b[5;5Rtrailing".toList) = (5, 5) :=
  ⟨by decide, by decide, by decide⟩

/-- C4: when the controlling terminal cannot be opened, stream
acquisition yields the unavailable sentinel (`none`) instead of
raising, release closes nothing (`false` close flag), and both `getyx`
and `getmaxyx` return the (0, 0) sentinel without any failure. -/
theorem queries_unavailable :
    getyx none = ((0, 0), none, false) ∧ getmaxyx none = ((0, 0), none, false) :=
  ⟨rfl, rfl⟩

/-- C8: entering the raw guard, then the cbreak guard on the same
descriptor, then exiting both in LIFO order leaves the descriptor with
the attributes the outer raw guard saved at entry (the pre-entry
attributes). The second conjunct checks on the sample snapshot that
the intermediate cbreak attributes are not what is restored: they
differ from the pre-entry ones. -/
theorem nested_guards_restore_outer (ε : Type) (w1 m1 t1 w2 m2 t2 : Nat)
    (body : Dev → Dev × Option ε) (d : Dev) :
    (rawmode ε w1 m1 t1 (fun d1 => cbreakmode ε w2 m2 t2 body d1) d).1.attrs = d.attrs ∧
    cbreakAttrs (rawAttrs attrs0 1 0) 1 0 ≠ attrs0 :=
  ⟨rfl, by decide⟩

/-- C10: the cursor-restore write of `getmaxyx` is unconditional on the
nested position query: on `dev10` the first reply is junk, the nested
`getyx` parses the (0, 0) sentinel, and `getmaxyx` still emits
`ESC[0;0f` as its final write, after parsing the true second reply
(24, 80). -/
theorem getmaxyx_restore_unconditional :
    (getyxCore (setcbreak dev10 TCSAFLUSH 0 1)).1 = (0, 0) ∧
      (getmaxyx (some dev10)).1 = (24, 80) ∧
      ((getmaxyx (some dev10)).2.1.map Dev.writes) =
        some ["\x1b[6n", "\x1b[10000;10000f\x1b[6n", "\x1b[0;0f"] :=
  ⟨by decide, by decide, by decide⟩

/-- C2: for a descriptor whose attributes can be read, `setraw` commits
attributes equal to the current snapshot with the BRKINT, ICRNL, INPCK,
ISTRIP and IXON bits cleared in the input flags, the OPOST bit cleared
in the output flags, the CSIZE and PARENB bits cleared and CS8 set in
the control flags, the ECHO, ICANON, IEXTEN and ISIG bits cleared in
the local flags, and `cc[VMIN]`/`cc[VTIME]` set to the supplied
values; the speeds and every other `cc` slot are unchanged, and the
commit uses the requested flush policy. The hypothesis reflects the
real NCCS-sized control-character array (`VMIN = 6` is a valid
index). -/
theorem setraw_transforms (d : Dev) (when min time : Nat)
    (hcc : VMIN < d.attrs.cc.length) :
    (∀ i, (setraw d when min time).attrs.iflag.testBit i
        = (d.attrs.iflag.testBit i &&
            !((BRKINT ||| ICRNL ||| INPCK ||| ISTRIP ||| IXON).testBit i))) ∧
    (∀ i, (setraw d when min time).attrs.oflag.testBit i
        = (d.attrs.oflag.testBit i && !(OPOST.testBit i))) ∧
    (∀ i, (setraw d when min time).attrs.cflag.testBit i
        = ((d.attrs.cflag.testBit i && !((CSIZE ||| PARENB).testBit i)) || CS8.testBit i)) ∧
    (∀ i, (setraw d when min time).attrs.lflag.testBit i
        = (d.attrs.lflag.testBit i && !((ECHO ||| ICANON ||| IEXTEN ||| ISIG).testBit i))) ∧
    (setraw d when min time).attrs.ispeed = d.attrs.ispeed ∧
    (setraw d when min time).attrs.ospeed = d.attrs.ospeed ∧
    (setraw d when min time).attrs.cc[VMIN]? = some min ∧
    (setraw d when min time).attrs.cc[VTIME]? = some time ∧
    (∀ j, j ≠ VMIN → j ≠ VTIME → (setraw d when min time).attrs.cc[j]? = d.attrs.cc[j]?) ∧
    (setraw d when min time).setLog
      = d.setLog ++ [(when, (setraw d when min time).attrs)] := by
  refine ⟨?_, ?_, ?_, ?_, rfl, rfl, ?_, ?_, ?_, rfl⟩
  · intro i
    simp [setraw, tcsetattr, tcgetattr, rawAttrs, testBit_andNot]
  · intro i
    simp [setraw, tcsetattr, tcgetattr, rawAttrs, testBit_andNot]
  · intro i
    simp [setraw, tcsetattr, tcgetattr, rawAttrs, testBit_andNot, Nat.testBit_lor]
  · intro i
    simp [setraw, tcsetattr, tcgetattr, rawAttrs, testBit_andNot]
  · show ((d.attrs.cc.set VMIN min).set VTIME time)[VMIN]? = some min
    rw [List.getElem?_set_ne (by decide), List.getElem?_set_eq_of_lt _ hcc]
  · show ((d.attrs.cc.set VMIN min).set VTIME time)[VTIME]? = some time
    rw [List.getElem?_set_eq_of_lt]
    rw [List.length_set]
    exact Nat.lt_of_lt_of_le (by decide) (Nat.le_of_lt hcc)
  · intro j h6 h5
    show ((d.attrs.cc.set VMIN min).set VTIME time)[j]? = d.attrs.cc[j]?
    rw [List.getElem?_set_ne (fun h => h5 h.symm), List.getElem?_set_ne (fun h => h6 h.symm)]

/-- Witness for the `setraw` theorem at a concrete device. -/
theorem setraw_transforms_witness :
    VMIN < dev0.attrs.cc.length ∧
    ((∀ i, (setraw dev0 TCSANOW 1 0).attrs.iflag.testBit i
        = (dev0.attrs.iflag.testBit i &&
            !((BRKINT ||| ICRNL ||| INPCK ||| ISTRIP ||| IXON).testBit i))) ∧
    (∀ i, (setraw dev0 TCSANOW 1 0).attrs.oflag.testBit i
        = (dev0.attrs.oflag.testBit i && !(OPOST.testBit i))) ∧
    (∀ i, (setraw dev0 TCSANOW 1 0).attrs.cflag.testBit i
        = ((dev0.attrs.cflag.testBit i && !((CSIZE ||| PARENB).testBit i)) || CS8.testBit i)) ∧
    (∀ i, (setraw dev0 TCSANOW 1 0).attrs.lflag.testBit i
        = (dev0.attrs.lflag.testBit i && !((ECHO ||| ICANON ||| IEXTEN ||| ISIG).testBit i))) ∧
    (setraw dev0 TCSANOW 1 0).attrs.ispeed = dev0.attrs.ispeed ∧
    (setraw dev0 TCSANOW 1 0).attrs.ospeed = dev0.attrs.ospeed ∧
    (setraw dev0 TCSANOW 1 0).attrs.cc[VMIN]? = some 1 ∧
    (setraw dev0 TCSANOW 1 0).attrs.cc[VTIME]? = some 0 ∧
    (∀ j, j ≠ VMIN → j ≠ VTIME →
        (setraw dev0 TCSANOW 1 0).attrs.cc[j]? = dev0.attrs.cc[j]?) ∧
    (setraw dev0 TCSANOW 1 0).setLog
      = dev0.setLog ++ [(TCSANOW, (setraw dev0 TCSANOW 1 0).attrs)]) :=
  ⟨by decide, setraw_transforms dev0 TCSANOW 1 0 (by decide)⟩

/-- C6: for a descriptor whose attributes can be read, `setcbreak`
commits attributes that differ from the snapshot only in the ECHO and
ICANON bits of the local flags (cleared) and in `cc[VMIN]`/`cc[VTIME]`
(set to the supplied values); the input, output and control flags, the
speeds, every other local-flag bit — in particular the ISIG bit
(bit 0) — and every other `cc` slot are unchanged. -/
theorem setcbreak_transforms (d : Dev) (when min time : Nat)
    (hcc : VMIN < d.attrs.cc.length) :
    (setcbreak d when min time).attrs.iflag = d.attrs.iflag ∧
    (setcbreak d when min time).attrs.oflag = d.attrs.oflag ∧
    (setcbreak d when min time).attrs.cflag = d.attrs.cflag ∧
    (setcbreak d when min time).attrs.ispeed = d.attrs.ispeed ∧
    (setcbreak d when min time).attrs.ospeed = d.attrs.ospeed ∧
    (∀ i, (setcbreak d when min time).attrs.lflag.testBit i
        = (d.attrs.lflag.testBit i && !((ECHO ||| ICANON).testBit i))) ∧
    (∀ i, (ECHO ||| ICANON).testBit i = false →
        (setcbreak d when min time).attrs.lflag.testBit i = d.attrs.lflag.testBit i) ∧
    (ISIG.testBit 0 = true ∧
      (setcbreak d when min time).attrs.lflag.testBit 0 = d.attrs.lflag.testBit 0) ∧
    (setcbreak d when min time).attrs.cc[VMIN]? = some min ∧
    (setcbreak d when min time).attrs.cc[VTIME]? = some time ∧
    (∀ j, j ≠ VMIN → j ≠ VTIME →
        (setcbreak d when min time).attrs.cc[j]? = d.attrs.cc[j]?) ∧
    (setcbreak d when min time).setLog
      = d.setLog ++ [(when, (setcbreak d when min time).attrs)] := by
  refine ⟨rfl, rfl, rfl, rfl, rfl, ?_, ?_, ⟨by decide, ?_⟩, ?_, ?_, ?_, rfl⟩
  · intro i
    simp [setcbreak, tcsetattr, tcgetattr, cbreakAttrs, testBit_andNot]
  · intro i h
    simp [setcbreak, tcsetattr, tcgetattr, cbreakAttrs, testBit_andNot, h]
  · have h0 : (ECHO ||| ICANON).testBit 0 = false := by decide
    rw [show (setcbreak d when min time).attrs.lflag
        = andNot d.attrs.lflag (ECHO ||| ICANON) from rfl, testBit_andNot, h0]
    simp
  · show ((d.attrs.cc.set VMIN min).set VTIME time)[VMIN]? = some min
    rw [List.getElem?_set_ne (by decide), List.getElem?_set_eq_of_lt _ hcc]
  · show ((d.attrs.cc.set VMIN min).set VTIME time)[VTIME]? = some time
    rw [List.getElem?_set_eq_of_lt]
    rw [List.length_set]
    exact Nat.lt_of_lt_of_le (by decide) (Nat.le_of_lt hcc)
  · intro j h6 h5
    show ((d.attrs.cc.set VMIN min).set VTIME time)[j]? = d.attrs.cc[j]?
    rw [List.getElem?_set_ne (fun h => h5 h.symm), List.getElem?_set_ne (fun h => h6 h.symm)]

/-- Witness for the `setcbreak` theorem at a concrete device. -/
theorem setcbreak_transforms_witness :
    VMIN < dev0.attrs.cc.length ∧
    ((setcbreak dev0 TCSANOW 1 0).attrs.iflag = dev0.attrs.iflag ∧
    (setcbreak dev0 TCSANOW 1 0).attrs.oflag = dev0.attrs.oflag ∧
    (setcbreak dev0 TCSANOW 1 0).attrs.cflag = dev0.attrs.cflag ∧
    (setcbreak dev0 TCSANOW 1 0).attrs.ispeed = dev0.attrs.ispeed ∧
    (setcbreak dev0 TCSANOW 1 0).attrs.ospeed = dev0.attrs.ospeed ∧
    (∀ i, (setcbreak dev0 TCSANOW 1 0).attrs.lflag.testBit i
        = (dev0.attrs.lflag.testBit i && !((ECHO ||| ICANON).testBit i))) ∧
    (∀ i, (ECHO ||| ICANON).testBit i = false →
        (setcbreak dev0 TCSANOW 1 0).attrs.lflag.testBit i = dev0.attrs.lflag.testBit i) ∧
    (ISIG.testBit 0 = true ∧
      (setcbreak dev0 TCSANOW 1 0).attrs.lflag.testBit 0 = dev0.attrs.lflag.testBit 0) ∧
    (setcbreak dev0 TCSANOW 1 0).attrs.cc[VMIN]? = some 1 ∧
    (setcbreak dev0 TCSANOW 1 0).attrs.cc[VTIME]? = some 0 ∧
    (∀ j, j ≠ VMIN → j ≠ VTIME →
        (setcbreak dev0 TCSANOW 1 0).attrs.cc[j]? = dev0.attrs.cc[j]?) ∧
    (setcbreak dev0 TCSANOW 1 0).setLog
      = dev0.setLog ++ [(TCSANOW, (setcbreak dev0 TCSANOW 1 0).attrs)]) :=
  ⟨by decide, setcbreak_transforms dev0 TCSANOW 1 0 (by decide)⟩

/-- The read loop consumes at most `fuel` characters. -/
theorem readLoopFuel_length (read : Nat → Option Char) :
    ∀ f i, (readLoopFuel read i f).length ≤ f := by
  intro f
  induction f with
  | zero => intro i; simp [readLoopFuel]
  | succ f ih =>
    intro i
    simp only [readLoopFuel]
    cases read i with
    | none => simp
    | some c =>
      by_cases hc : c = 'R'
      · simp [hc]
      · simp only [hc, if_false, List.length_cons]
        exact Nat.succ_le_succ (ih (i + 1))

/-- Once a stop condition (an `'R'` or an empty read) occurs `n` reads
ahead, any fuel beyond `n` gives the same result as fuel `n + 1`. -/
theorem readLoopFuel_stop (read : Nat → Option Char) :
    ∀ n i f, (read (i + n) = none ∨ read (i + n) = some 'R') → n < f →
      readLoopFuel read i f = readLoopFuel read i (n + 1) := by
  intro n
  induction n with
  | zero =>
    intro i f h hf
    obtain ⟨f, rfl⟩ : ∃ g, f = g + 1 := ⟨f - 1, by omega⟩
    rw [Nat.add_zero] at h
    simp only [readLoopFuel]
    rcases h with h | h <;> (rw [h]; try simp)
  | succ n ih =>
    intro i f h hf
    obtain ⟨f, rfl⟩ : ∃ g, f = g + 1 := ⟨f - 1, by omega⟩
    rw [show i + (n + 1) = (i + 1) + n by omega] at h
    simp only [readLoopFuel]
    cases hr : read i with
    | none => rfl
    | some c =>
      by_cases hc : c = 'R'
      · simp [hc]
      · simp only [hc, if_false]
        exact congrArg (fun l => c :: l) (ih (i + 1) f h (by omega))

/-- C9: the response-reading loop terminates for every stream that
yields an `'R'` or an empty read at some position `n`: the loop's
result no longer depends on the unrolling bound once the bound passes
`n` (the loop stops on its own), and it reads at most the `n + 1`
bytes up to and including the stop position — a bounded loop, not an
unbounded read. -/
theorem readLoop_terminates (read : Nat → Option Char) (n : Nat)
    (h : read n = none ∨ read n = some 'R') :
    (∀ f1 f2, n < f1 → n < f2 → readLoopFuel read 0 f1 = readLoopFuel read 0 f2) ∧
    (∀ f, n < f → (readLoopFuel read 0 f).length ≤ n + 1) := by
  have h0 : read (0 + n) = none ∨ read (0 + n) = some 'R' := by rwa [Nat.zero_add]
  constructor
  · intro f1 f2 h1 h2
    rw [readLoopFuel_stop read n 0 f1 h0 h1, readLoopFuel_stop read n 0 f2 h0 h2]
  · intro f hf
    rw [readLoopFuel_stop read n 0 f h0 hf]
    exact readLoopFuel_length read (n + 1) 0

/-- Witness for the termination theorem on a stream answering `'R'`
immediately. -/
theorem readLoop_terminates_witness :
    ((fun _ : Nat => (some 'R' : Option Char)) 0 = none ∨
      (fun _ : Nat => (some 'R' : Option Char)) 0 = some 'R') ∧
    ((∀ f1 f2, 0 < f1 → 0 < f2 →
        readLoopFuel (fun _ => some 'R') 0 f1 = readLoopFuel (fun _ => some 'R') 0 f2) ∧
     (∀ f, 0 < f → (readLoopFuel (fun _ => some 'R') 0 f).length ≤ 0 + 1)) :=
  ⟨Or.inr rfl, readLoop_terminates (fun _ => some 'R') 0 (Or.inr rfl)⟩

/-- A digit character is none of the protocol's literal characters. -/
theorem digit_ne (c : Char) (hc : c.isDigit = true) :
    c ≠ 'R' ∧ c ≠ '[' ∧ c ≠ ';' ∧ c ≠ '\x1b' := by
  refine ⟨?_, ?_, ?_, ?_⟩ <;> rintro rfl <;> exact absurd hc (by decide)

/-- `takeWhile isDigit` over an all-digit block followed by a
non-digit keeps exactly the block. -/
theorem takeWhile_digits (l t : List Char) (c : Char)
    (hl : l.all Char.isDigit = true) (hc : Char.isDigit c = false) :
    ((l ++ c :: t).takeWhile Char.isDigit) = l := by
  induction l with
  | nil => simp [List.takeWhile_cons, hc]
  | cons a l ih =>
    rw [List.all_cons, Bool.and_eq_true] at hl
    simp [List.takeWhile_cons, hl.1, ih hl.2]

/-- `dropWhile isDigit` over an all-digit block followed by a
non-digit drops exactly the block. -/
theorem dropWhile_digits (l t : List Char) (c : Char)
    (hl : l.all Char.isDigit = true) (hc : Char.isDigit c = false) :
    ((l ++ c :: t).dropWhile Char.isDigit) = c :: t := by
  induction l with
  | nil => simp [List.dropWhile_cons, hc]
  | cons a l ih =>
    rw [List.all_cons, Bool.and_eq_true] at hl
    simp [List.dropWhile_cons, hl.1, ih hl.2]

/-- The read loop on an `R`-free prefix followed by `'R'` accumulates
the prefix and the terminator, and nothing further. -/
theorem takeResp_prefix (l t : List Char) (hl : ∀ c ∈ l, c ≠ 'R') :
    takeResp (l ++ 'R' :: t) = l ++ ['R'] := by
  induction l with
  | nil => simp [takeResp]
  | cons a l ih =>
    have ha : a ≠ 'R' := hl a (List.mem_cons_self a l)
    simp [takeResp, ha, ih (fun c hc => hl c (List.mem_cons_of_mem a hc))]

/-- No match starts at a character other than `'['`. -/
theorem matchAt_ne (c : Char) (l : List Char) (hc : ¬ c = '[') :
    matchAt (c :: l) = none := by
  simp [matchAt, hc]

/-- The match succeeds on a wellformed `[<digits>;<digits>R` prefix
and returns the two digit groups. -/
theorem matchAt_wellformed (s1 s2 t : List Char)
    (h1 : s1 ≠ []) (h1d : s1.all Char.isDigit = true)
    (h2 : s2 ≠ []) (h2d : s2.all Char.isDigit = true) :
    matchAt ('[' :: (s1 ++ ';' :: (s2 ++ 'R' :: t))) = some (s1, s2) := by
  have hsemi : Char.isDigit ';' = false := by decide
  have hR : Char.isDigit 'R' = false := by decide
  simp only [matchAt, takeWhile_digits s1 (s2 ++ 'R' :: t) ';' h1d hsemi,
    dropWhile_digits s1 (s2 ++ 'R' :: t) ';' h1d hsemi,
    takeWhile_digits s2 t 'R' h2d hR, dropWhile_digits s2 t 'R' h2d hR]
  simp [h1, h2]

/-- Every character of a wellformed reply before its final `R` differs
from `'R'`. -/
theorem prefix_ne_R (s1 s2 : List Char)
    (h1d : s1.all Char.isDigit = true) (h2d : s2.all Char.isDigit = true) :
    ∀ c ∈ '\x1b' :: '[' :: (s1 ++ ';' :: s2), c ≠ 'R' := by
  intro c hc
  rcases List.mem_cons.mp hc with rfl | hc
  · decide
  rcases List.mem_cons.mp hc with rfl | hc
  · decide
  rcases List.mem_append.mp hc with hc | hc
  · exact (digit_ne c (List.all_eq_true.mp h1d c hc)).1
  rcases List.mem_cons.mp hc with rfl | hc
  · decide
  · exact (digit_ne c (List.all_eq_true.mp h2d c hc)).1

/-- `_readyx` on a stream starting with a wellformed DSR-6 reply
parses the two coordinates (stopping at the reply's `R`, before any
later bytes). -/
theorem readyxList_reply (s1 s2 t : List Char)
    (h1 : s1 ≠ []) (h1d : s1.all Char.isDigit = true)
    (h2 : s2 ≠ []) (h2d : s2.all Char.isDigit = true) :
    readyxList ('\x1b' :: '[' :: (s1 ++ ';' :: (s2 ++ 'R' :: t))) = (pyint s1, pyint s2) := by
  have hsplit : '\x1b' :: '[' :: (s1 ++ ';' :: (s2 ++ 'R' :: t))
      = ('\x1b' :: '[' :: (s1 ++ ';' :: s2)) ++ 'R' :: t := by simp
  have htake : takeResp ('\x1b' :: '[' :: (s1 ++ ';' :: (s2 ++ 'R' :: t)))
      = '\x1b' :: '[' :: (s1 ++ ';' :: (s2 ++ ['R'])) := by
    rw [hsplit, takeResp_prefix _ _ (prefix_ne_R s1 s2 h1d h2d)]
    simp
  rw [readyxList, htake, parseResp]
  have hm : matchAt ('[' :: (s1 ++ ';' :: (s2 ++ 'R' :: ([] : List Char)))) = some (s1, s2) :=
    matchAt_wellformed s1 s2 [] h1 h1d h2 h2d
  simp [search, matchAt_ne '\x1b' _ (by decide), hm]

/-- `_readyx` on a device holding a wellformed reply: it returns the
two coordinates and consumes exactly the reply. -/
theorem readyxDev_reply (d : Dev) (s1 s2 t : List Char)
    (h1 : s1 ≠ []) (h1d : s1.all Char.isDigit = true)
    (h2 : s2 ≠ []) (h2d : s2.all Char.isDigit = true)
    (hin : d.input = '\x1b' :: '[' :: (s1 ++ ';' :: (s2 ++ 'R' :: t))) :
    readyxDev d = ((pyint s1, pyint s2), { d with input := t }) := by
  have hsplit : '\x1b' :: '[' :: (s1 ++ ';' :: (s2 ++ 'R' :: t))
      = ('\x1b' :: '[' :: (s1 ++ ';' :: s2)) ++ 'R' :: t := by simp
  have htake : takeResp ('\x1b' :: '[' :: (s1 ++ ';' :: (s2 ++ 'R' :: t)))
      = ('\x1b' :: '[' :: (s1 ++ ';' :: s2)) ++ ['R'] := by
    rw [hsplit, takeResp_prefix _ _ (prefix_ne_R s1 s2 h1d h2d)]
  have hdrop : ('\x1b' :: '[' :: (s1 ++ ';' :: (s2 ++ 'R' :: t))).drop
      (takeResp ('\x1b' :: '[' :: (s1 ++ ';' :: (s2 ++ 'R' :: t)))).length = t := by
    rw [htake, hsplit]
    have he : ('\x1b' :: '[' :: (s1 ++ ';' :: s2)) ++ 'R' :: t
        = (('\x1b' :: '[' :: (s1 ++ ';' :: s2)) ++ ['R']) ++ t := by simp
    rw [he]
    exact List.drop_left _ _
  rw [readyxDev, hin]
  rw [readyxList_reply s1 s2 t h1 h1d h2 h2d, hdrop]

/-- `readyxDev_reply` restated on a literal device record, in the form
the protocol computations below rewrite with. -/
theorem readyxDev_reply' (a : TermAttrs) (lg : List (Nat × TermAttrs)) (w : List String)
    (s1 s2 t : List Char)
    (h1 : s1 ≠ []) (h1d : s1.all Char.isDigit = true)
    (h2 : s2 ≠ []) (h2d : s2.all Char.isDigit = true) :
    readyxDev { attrs := a, setLog := lg,
                input := '\x1b' :: '[' :: (s1 ++ ';' :: (s2 ++ 'R' :: t)), writes := w }
      = ((pyint s1, pyint s2),
         { attrs := a, setLog := lg, input := t, writes := w }) :=
  readyxDev_reply _ s1 s2 t h1 h1d h2 h2d rfl

/-- Full computation of `getmaxyx`'s body on a device whose terminal
answers both DSR-6 queries: result, attribute commits, consumed input
and the three writes. -/
theorem getmaxyxCore_reply (d : Dev) (s1 s2 s3 s4 t : List Char)
    (h1 : s1 ≠ []) (h1d : s1.all Char.isDigit = true)
    (h2 : s2 ≠ []) (h2d : s2.all Char.isDigit = true)
    (h3 : s3 ≠ []) (h3d : s3.all Char.isDigit = true)
    (h4 : s4 ≠ []) (h4d : s4.all Char.isDigit = true)
    (hin : d.input = '\x1b' :: '[' :: (s1 ++ ';' :: (s2 ++ 'R' ::
      ('\x1b' :: '[' :: (s3 ++ ';' :: (s4 ++ 'R' :: t)))))) :
    getmaxyxCore d = ((pyint s3, pyint s4),
      { attrs := d.attrs
        setLog := d.setLog ++ [(TCSAFLUSH, cbreakAttrs d.attrs 0 1),
          (TCSAFLUSH, cbreakAttrs (cbreakAttrs d.attrs 0 1) 0 1),
          (TCSAFLUSH, cbreakAttrs d.attrs 0 1), (TCSAFLUSH, d.attrs)]
        input := t
        writes := d.writes ++ ["\x1b[6n", "\x1b[10000;10000f\x1b[6n",
          "\x1b[" ++ toString (pyint s1) ++ ";" ++ toString (pyint s2) ++ "f"] }) := by
  simp only [getmaxyxCore, getyxCore, setcbreak, tcsetattr, tcgetattr, writeD, flushD, hin]
  rw [readyxDev_reply' _ _ _ s1 s2 _ h1 h1d h2 h2d]
  simp only []
  rw [readyxDev_reply' _ _ _ s3 s4 _ h3 h3d h4 h4d]
  simp [List.append_assoc]

/-- C5: on a terminal that answers the DSR-6 query (device input =
two wellformed replies), `getmaxyx` returns the coordinates of the
second (clamped) reply; its write trace is exactly the nested
`getyx`'s query, the cursor-jump-plus-query write, and the cursor
restore `ESC[<row>;<col>f` formatted from the first reply — two query
round-trips in all — and the restore is its last emitted write. -/
theorem getmaxyx_protocol (d : Dev) (s1 s2 s3 s4 t : List Char)
    (h1 : s1 ≠ []) (h1d : s1.all Char.isDigit = true)
    (h2 : s2 ≠ []) (h2d : s2.all Char.isDigit = true)
    (h3 : s3 ≠ []) (h3d : s3.all Char.isDigit = true)
    (h4 : s4 ≠ []) (h4d : s4.all Char.isDigit = true)
    (hin : d.input = '\x1b' :: '[' :: (s1 ++ ';' :: (s2 ++ 'R' ::
      ('\x1b' :: '[' :: (s3 ++ ';' :: (s4 ++ 'R' :: t)))))) :
    (getmaxyx (some d)).1 = (pyint s3, pyint s4) ∧
    ((getmaxyx (some d)).2.1.map Dev.writes)
      = some (d.writes ++ ["\x1b[6n", "\x1b[10000;10000f\x1b[6n",
          "\x1b[" ++ toString (pyint s1) ++ ";" ++ toString (pyint s2) ++ "f"]) ∧
    ((getmaxyx (some d)).2.1.map (fun x => x.writes.getLast?))
      = some (some ("\x1b[" ++ toString (pyint s1) ++ ";" ++ toString (pyint s2) ++ "f")) := by
  have hm := getmaxyxCore_reply d s1 s2 s3 s4 t h1 h1d h2 h2d h3 h3d h4 h4d hin
  refine ⟨?_, ?_, ?_⟩
  · simp [getmaxyx, ttystream, hm]
  · simp [getmaxyx, ttystream, hm]
  · simp only [getmaxyx, ttystream, hm, Option.map_some]
    rw [show d.writes ++ ["\x1b[6n", "\x1b[10000;10000f\x1b[6n",
          "\x1b[" ++ toString (pyint s1) ++ ";" ++ toString (pyint s2) ++ "f"]
        = (d.writes ++ ["\x1b[6n", "\x1b[10000;10000f\x1b[6n"]) ++
          ["\x1b[" ++ toString (pyint s1) ++ ";" ++ toString (pyint s2) ++ "f"] by simp]
    simp [List.getLast?_concat]

/-- Witness for the protocol theorem on a concrete answering
terminal. -/
theorem getmaxyx_protocol_witness :
    (devC5.input = '\x1b' :: '[' :: (['3'] ++ ';' :: (['7'] ++ 'R' ::
      ('\x1b' :: '[' :: (['2', '4'] ++ ';' :: (['8', '0'] ++ 'R' :: ([] : List Char))))))) ∧
    ((getmaxyx (some devC5)).1 = (pyint ['2', '4'], pyint ['8', '0']) ∧
    ((getmaxyx (some devC5)).2.1.map Dev.writes)
      = some (devC5.writes ++ ["\x1b[6n", "\x1b[10000;10000f\x1b[6n",
          "\x1b[" ++ toString (pyint ['3']) ++ ";" ++ toString (pyint ['7']) ++ "f"]) ∧
    ((getmaxyx (some devC5)).2.1.map (fun x => x.writes.getLast?))
      = some (some ("\x1b[" ++ toString (pyint ['3']) ++ ";" ++ toString (pyint ['7']) ++ "f"))) :=
  ⟨by decide, getmaxyx_protocol devC5 ['3'] ['7'] ['2', '4'] ['8', '0'] []
    (by decide) (by decide) (by decide) (by decide) (by decide) (by decide)
    (by decide) (by decide) (by decide)⟩

/-- Numeric bounds of an ASCII digit character. -/
theorem digit_toNat_bounds (c : Char) (hc : c.isDigit = true) :
    48 ≤ c.toNat ∧ c.toNat ≤ 57 := by
  simp [Char.isDigit] at hc
  obtain ⟨h1, h2⟩ := hc
  exact ⟨UInt32.le_toNat_of_le (by decide) h1, UInt32.toNat_le_of_le (by decide) h2⟩

/-- A digit's value is zero exactly for the character `'0'`. -/
theorem digit_val_zero (c : Char) (hc : c.isDigit = true) :
    c.toNat - '0'.toNat = 0 ↔ c = '0' := by
  constructor
  · intro h
    have hb := (digit_toNat_bounds c hc).1
    have h0 : '0'.toNat = 48 := rfl
    rw [h0] at h
    have h48 : c.toNat = 48 := by omega
    rw [← Char.ofNat_toNat c, h48]
  · rintro rfl
    rfl

/-- The base-10 fold is zero exactly when the accumulator is zero and
every digit is `'0'`. -/
theorem pyint_foldl_zero (l : List Char) :
    ∀ a, l.all Char.isDigit = true →
      ((l.foldl (fun a c => 10 * a + (c.toNat - '0'.toNat)) a = 0) ↔
        (a = 0 ∧ l.all (fun c => c == '0') = true)) := by
  induction l with
  | nil => intro a _; simp
  | cons c l ih =>
    intro a hd
    rw [List.all_cons, Bool.and_eq_true] at hd
    rw [List.foldl_cons, ih _ hd.2, List.all_cons, Bool.and_eq_true]
    constructor
    · rintro ⟨h0, hall⟩
      have ha : a = 0 := by omega
      have hc0 : c.toNat - '0'.toNat = 0 := by omega
      have := (digit_val_zero c hd.1).mp hc0
      subst this
      exact ⟨ha, by simp, hall⟩
    · rintro ⟨rfl, hc, hall⟩
      have hc' : c = '0' := by simpa using hc
      subst hc'
      exact ⟨by simp [pyint], hall⟩

/-- The base-10 value of an all-digit group is zero exactly when the
group is all zeros. -/
theorem pyint_zero_iff (l : List Char) (hd : l.all Char.isDigit = true) :
    pyint l = 0 ↔ l.all (fun c => c == '0') = true := by
  rw [pyint, pyint_foldl_zero l 0 hd]
  simp

/-- A successful match always yields two nonempty all-digit groups. -/
theorem matchAt_groups (l g1 g2 : List Char) (h : matchAt l = some (g1, g2)) :
    g1 ≠ [] ∧ g1.all Char.isDigit = true ∧ g2 ≠ [] ∧ g2.all Char.isDigit = true := by
  unfold matchAt at h
  split at h
  · exact absurd h (by simp)
  next c rest =>
    split at h
    next hcond =>
      split at h
      next c1 rest2 hdrop =>
        split at h
        next hcond2 =>
          split at h
          next c2 rest3 hdrop2 =>
            split at h
            next hR =>
              injection h with h
              injection h with ha hb
              subst ha
              subst hb
              exact ⟨hcond.2, List.all_takeWhile, hcond2.2, List.all_takeWhile⟩
            next => exact absurd h (by simp)
          next => exact absurd h (by simp)
        next => exact absurd h (by simp)
      next => exact absurd h (by simp)
    next => exact absurd h (by simp)

/-- A successful search always yields two nonempty all-digit groups. -/
theorem search_groups (p : List Char) (g1 g2 : List Char) (h : search p = some (g1, g2)) :
    g1 ≠ [] ∧ g1.all Char.isDigit = true ∧ g2 ≠ [] ∧ g2.all Char.isDigit = true := by
  induction p with
  | nil => exact absurd h (by simp [search])
  | cons c cs ih =>
    rw [search] at h
    cases hm : matchAt (c :: cs) with
    | some g =>
      rw [hm] at h
      injection h with h
      subst h
      exact matchAt_groups (c :: cs) g1 g2 hm
    | none =>
      rw [hm] at h
      exact ih h

/-- C7 (amended): whenever the pattern match succeeds on the
accumulated buffer, the returned pair is the pair of base-10 values of
the two matched digit groups — nonempty all-digit strings — and hence
consists of nonnegative integers; a component is zero exactly when its
digit group is all zeros, so the pair need not be strictly positive. -/
theorem readyx_match_values (p g1 g2 : List Char)
    (h : search (takeResp p) = some (g1, g2)) :
    readyxList p = (pyint g1, pyint g2) ∧
    g1 ≠ [] ∧ g1.all Char.isDigit = true ∧
    g2 ≠ [] ∧ g2.all Char.isDigit = true ∧
    (pyint g1 = 0 ↔ g1.all (fun c => c == '0') = true) ∧
    (pyint g2 = 0 ↔ g2.all (fun c => c == '0') = true) := by
  obtain ⟨h1, h1d, h2, h2d⟩ := search_groups (takeResp p) g1 g2 h
  have hne : takeResp p ≠ [] := by
    intro he
    rw [he] at h
    exact absurd h (by simp [search])
  refine ⟨?_, h1, h1d, h2, h2d, pyint_zero_iff g1 h1d, pyint_zero_iff g2 h2d⟩
  rw [readyxList, parseResp, if_neg hne, h]

/-- C7 counterexample: on the stream `[0;5R` the pattern match
succeeds with digit groups `0` and `5`, and the parser returns
`(0, 5)` — the first component is not strictly positive, refuting the
claim that a successful match always yields positive pairs. -/
theorem readyx_positive_cex :
    ¬ (∀ p g1 g2, search (takeResp p) = some (g1, g2) →
        0 < (readyxList p).1 ∧ 0 < (readyxList p).2) := by
  intro hall
  have h := hall ("[0;5R".toList) ['0'] ['5'] (by decide)
  exact absurd h.1 (by decide)

/-- Witness for the amended parser theorem on a wellformed buffer. -/
theorem readyx_match_values_witness :
    search (takeResp ("\x1b[24;80R".toList)) = some (['2', '4'], ['8', '0']) ∧
    (readyxList ("\x1b[24;80R".toList) = (pyint ['2', '4'], pyint ['8', '0']) ∧
    ['2', '4'] ≠ [] ∧ (['2', '4'] : List Char).all Char.isDigit = true ∧
    ['8', '0'] ≠ [] ∧ (['8', '0'] : List Char).all Char.isDigit = true ∧
    (pyint ['2', '4'] = 0 ↔ (['2', '4'] : List Char).all (fun c => c == '0') = true) ∧
    (pyint ['8', '0'] = 0 ↔ (['8', '0'] : List Char).all (fun c => c == '0') = true)) :=
  ⟨by decide, readyx_match_values ("\x1b[24;80R".toList) ['2', '4'] ['8', '0'] (by decide)⟩
